import Mathlib

/-!
Shallow embedding of `src/backend/backend.py` (class `BankBackend`).

The SQLite database is modelled as an explicit state (`BankState`):
the `customer` table as a list of `Customer` rows in insertion order,
the `transactions` table as a list of `TxRecord` rows in insertion order,
together with the two `AUTOINCREMENT` counters.  SQLite `AUTOINCREMENT`
row ids start at 1 and grow by 1 per insert.

Monetary values are modelled as exact rationals (`ℚ`).  The source stores
`REAL` columns and uses Python float arithmetic; the discrepancy between
the exact-decimal numeric policy and the binary floating-point
representation is recorded separately and does not affect the control
flow modelled here.

The Python methods return `None` on every failure path (invalid amount,
unknown account, insufficient funds, integrity error); the embedding
mirrors this with `Option` results.  A mutating method returns the pair
(result, state after the call); a read-only method returns its result
only, the state being untouched by construction.

`hashlib.sha256(...).hexdigest()` is an external library function; the
embedding takes it as an explicit function parameter `hash : String →
String`.  The source always hashes `str(pin)`; Python values that can
appear as a PIN are modelled by `PinValue` and `str` by `pyStr`.
-/

namespace Bank

/-- A row of the `customer` table
(`account_no, name, mobile_no, email, pin_hash, action_type, balance`). -/
structure Customer where
  account_no : Nat
  name : String
  mobile_no : String
  email : String
  pin_hash : String
  action_type : String
  balance : ℚ
deriving DecidableEq

/-- A row of the `transactions` table
(`id, account_no, action_type, amount, balance_after, date_time`). -/
structure TxRecord where
  id : Nat
  account_no : Nat
  action_type : String
  amount : ℚ
  balance_after : ℚ
  date_time : String
deriving DecidableEq

/-- The persisted database state: both tables plus the autoincrement
counters for `customer.account_no` and `transactions.id`. -/
structure BankState where
  customers : List Customer
  transactions : List TxRecord
  nextAccountNo : Nat
  nextTxId : Nat
deriving DecidableEq

/-- The freshly initialised database (`init_db` on a new file): both
tables empty, autoincrement ids starting at 1. -/
def BankState.init : BankState := ⟨[], [], 1, 1⟩

/-- A Python value used as a PIN: the demo passes the int `1234`, a
caller may pass a string. -/
inductive PinValue where
  | intPin (n : Int)
  | strPin (s : String)
deriving DecidableEq

/-- Python `str(pin)` as applied in `create_account` and `authenticate`. -/
def pyStr : PinValue → String
  | .intPin n => toString n
  | .strPin s => s

/-- `SELECT ... FROM customer WHERE account_no = ?` followed by
`fetchone()`: the first row with that key, if any. -/
def findCustomer (st : BankState) (acct : Nat) : Option Customer :=
  st.customers.find? (fun c => c.account_no == acct)

/-- `BankBackend.create_account`: hashes `str(pin)` with sha256 and
inserts a row with balance `0.00`.  A UNIQUE violation on `mobile_no` or
`email`, or a CHECK violation on `action_type`, raises
`sqlite3.IntegrityError`, which the method catches: it rolls back and
returns `None`, leaving the state unchanged.  On success it returns the
new autoincrement `account_no`. -/
def create_account (hash : String → String) (st : BankState)
    (name mobile_no email : String) (pin : PinValue) (action_type : String) :
    Option Nat × BankState :=
  if st.customers.any (fun c => c.mobile_no == mobile_no || c.email == email)
      || !(action_type == "Savings" || action_type == "Current") then
    (none, st)
  else
    let row : Customer :=
      ⟨st.nextAccountNo, name, mobile_no, email, hash (pyStr pin), action_type, 0⟩
    (some st.nextAccountNo,
      { st with
          customers := st.customers ++ [row],
          nextAccountNo := st.nextAccountNo + 1 })

/-- `BankBackend.authenticate`: fetch `pin_hash` for the account; if no
row, return `False`; otherwise compare the stored hash with the sha256
of `str(pin)`. -/
def authenticate (hash : String → String) (st : BankState) (acct : Nat)
    (pin : PinValue) : Bool :=
  match findCustomer st acct with
  | none => false
  | some c => c.pin_hash == hash (pyStr pin)

/-- `BankBackend.get_balance`: current balance, or `None` if the account
does not exist. -/
def get_balance (st : BankState) (acct : Nat) : Option ℚ :=
  (findCustomer st acct).map (fun c => c.balance)

/-- `UPDATE customer SET balance = ? WHERE account_no = ?`. -/
def updateBalance (st : BankState) (acct : Nat) (newBal : ℚ) : List Customer :=
  st.customers.map (fun c =>
    if c.account_no == acct then { c with balance := newBal } else c)

/-- `BankBackend.deposit`: reject `amount <= 0`; fetch the balance,
returning `None` if the account is unknown; otherwise set the balance to
`balance + amount`, insert a `Credit` transaction with
`balance_after = new_balance` and timestamp `now`, commit, and return
the new balance. -/
def deposit (st : BankState) (acct : Nat) (amount : ℚ) (now : String) :
    Option ℚ × BankState :=
  if amount ≤ 0 then (none, st)
  else
    match findCustomer st acct with
    | none => (none, st)
    | some c =>
      let new_balance := c.balance + amount
      let row : TxRecord := ⟨st.nextTxId, acct, "Credit", amount, new_balance, now⟩
      (some new_balance,
        { st with
            customers := updateBalance st acct new_balance,
            transactions := st.transactions ++ [row],
            nextTxId := st.nextTxId + 1 })

/-- `BankBackend.withdraw`: same shape as `deposit` with the sufficiency
check `result[0] < amount` causing a `None` return, and a `Debit`
transaction on success with balance `balance - amount`. -/
def withdraw (st : BankState) (acct : Nat) (amount : ℚ) (now : String) :
    Option ℚ × BankState :=
  if amount ≤ 0 then (none, st)
  else
    match findCustomer st acct with
    | none => (none, st)
    | some c =>
      if c.balance < amount then (none, st)
      else
        let new_balance := c.balance - amount
        let row : TxRecord := ⟨st.nextTxId, acct, "Debit", amount, new_balance, now⟩
        (some new_balance,
          { st with
              customers := updateBalance st acct new_balance,
              transactions := st.transactions ++ [row],
              nextTxId := st.nextTxId + 1 })

/-- Insert a record into a list kept in descending `date_time` order. -/
def insertByDateDesc (t : TxRecord) : List TxRecord → List TxRecord
  | [] => [t]
  | u :: us =>
    if u.date_time ≤ t.date_time then t :: u :: us else u :: insertByDateDesc t us

/-- `ORDER BY date_time DESC`: sort into descending `date_time` order. -/
def sortByDateDesc : List TxRecord → List TxRecord
  | [] => []
  | t :: ts => insertByDateDesc t (sortByDateDesc ts)

/-- `BankBackend.get_transaction_history`: the account's transactions,
ordered by `date_time` descending, limited to `limit` rows.  Read-only:
it is a pure function of the state and returns no new state. -/
def get_transaction_history (st : BankState) (acct : Nat) (limit : Nat) :
    List TxRecord :=
  (sortByDateDesc (st.transactions.filter (fun t => t.account_no == acct))).take limit

/-- `get_transaction_history` with Python's default argument `limit=10`. -/
def get_transaction_history_default (st : BankState) (acct : Nat) : List TxRecord :=
  get_transaction_history st acct 10

/-- One API call that can change the persisted state. -/
inductive Op where
  | createAcct (name mobile_no email : String) (pin : PinValue) (action_type : String)
  | dep (acct : Nat) (amount : ℚ) (now : String)
  | wd (acct : Nat) (amount : ℚ) (now : String)

/-- The state after one call (the returned value discarded). -/
def applyOp (hash : String → String) (st : BankState) : Op → BankState
  | .createAcct n m e p ty => (create_account hash st n m e p ty).2
  | .dep a amt now => (deposit st a amt now).2
  | .wd a amt now => (withdraw st a amt now).2

/-- The state after a sequence of calls. -/
def runOps (hash : String → String) (st : BankState) (ops : List Op) : BankState :=
  ops.foldl (applyOp hash) st

/-- The signed contribution of one transaction record to a replayed
balance: `+amount` for a `Credit` row, `-amount` for a `Debit` row. -/
def txDelta (t : TxRecord) : ℚ :=
  if t.action_type == "Credit" then t.amount else -t.amount

/-- Apply one transaction record to a running balance. -/
def applyTx (b : ℚ) (t : TxRecord) : ℚ :=
  if t.action_type == "Credit" then b + t.amount else b - t.amount

/-- Replay a list of transaction records, in order, from balance `0.00`. -/
def replayBalance (txs : List TxRecord) : ℚ := txs.foldl applyTx 0

/-- The account's transaction records, in creation (= insertion) order. -/
def acctTxs (st : BankState) (acct : Nat) : List TxRecord :=
  st.transactions.filter (fun t => t.account_no == acct)

/-! ### The reachable-state invariant -/

/-- Everything that holds of every database state reachable from
`BankState.init` through the API. -/
structure Inv (st : BankState) : Prop where
  replay_ok : ∀ c ∈ st.customers, replayBalance (acctTxs st c.account_no) = c.balance
  nonneg : ∀ c ∈ st.customers, 0 ≤ c.balance
  keys_unique : st.customers.Pairwise (fun a b => a.account_no ≠ b.account_no)
  keys_lt : ∀ c ∈ st.customers, c.account_no < st.nextAccountNo
  tx_lt : ∀ t ∈ st.transactions, t.account_no < st.nextAccountNo
  tx_dir : ∀ t ∈ st.transactions, t.action_type = "Credit" ∨ t.action_type = "Debit"

/-! ### Concrete fixtures (the spec's worked scenario) -/

/-- A concrete stand-in for the sha256 hexdigest, used only in concrete
instantiations; the theorems themselves are parametric in the hash. -/
def exHash : String → String := fun s => String.append "h:" s

/-- The spec's worked scenario: open an account, deposit 1000.00,
withdraw 200.00. -/
def exOps : List Op :=
  [Op.createAcct "John Doe" "1234567890" "john@example.com"
      (PinValue.intPin 1234) "Savings",
    Op.dep 1 1000 "2025-01-01T10:00:00",
    Op.wd 1 200 "2025-01-01T11:00:00"]

/-- The database state after the worked scenario. -/
def exSt : BankState := runOps exHash BankState.init exOps

/-- The single customer row of `exSt`: balance 800.00 after the
scenario. -/
def exCust : Customer :=
  ⟨1, "John Doe", "1234567890", "john@example.com",
    exHash (pyStr (PinValue.intPin 1234)), "Savings", 800⟩

/-- The older transaction row of `exSt`. -/
def exTxCredit : TxRecord := ⟨1, 1, "Credit", 1000, 1000, "2025-01-01T10:00:00"⟩

/-- The newest transaction row of `exSt`. -/
def exTxDebit : TxRecord := ⟨2, 1, "Debit", 200, 800, "2025-01-01T11:00:00"⟩

/-- A single-account state built with the identity as hash stand-in. -/
def exSt2 : BankState :=
  (create_account (fun s => s) BankState.init "A" "m1" "e1"
    (PinValue.intPin 1234) "Savings").2

/-! ### Auxiliary lemmas -/

lemma applyTx_eq (b : ℚ) (t : TxRecord) : applyTx b t = b + txDelta t := by
  unfold applyTx txDelta
  split <;> ring

lemma foldl_applyTx (l : List TxRecord) (b : ℚ) :
    l.foldl applyTx b = b + (l.map txDelta).sum := by
  induction l generalizing b with
  | nil => simp
  | cons t ts ih =>
    simp only [List.foldl_cons, List.map_cons, List.sum_cons, applyTx_eq, ih]
    ring

lemma replayBalance_eq_sum (l : List TxRecord) :
    replayBalance l = (l.map txDelta).sum := by
  simpa using foldl_applyTx l 0

lemma replayBalance_append_single (l : List TxRecord) (t : TxRecord) :
    replayBalance (l ++ [t]) = replayBalance l + txDelta t := by
  simp [replayBalance_eq_sum]

lemma findCustomer_mem {st : BankState} {acct : Nat} {c : Customer}
    (h : findCustomer st acct = some c) : c ∈ st.customers :=
  List.mem_of_find?_eq_some h

lemma findCustomer_key {st : BankState} {acct : Nat} {c : Customer}
    (h : findCustomer st acct = some c) : c.account_no = acct := by
  have := List.find?_some h
  simpa using this

lemma mem_key_eq {l : List Customer}
    (hp : l.Pairwise (fun a b => a.account_no ≠ b.account_no))
    {a b : Customer} (ha : a ∈ l) (hb : b ∈ l)
    (hk : a.account_no = b.account_no) : a = b := by
  induction l with
  | nil => cases ha
  | cons x xs ih =>
    rcases List.pairwise_cons.mp hp with ⟨hx, hxs⟩
    rcases List.mem_cons.mp ha with rfl | ha2
    · rcases List.mem_cons.mp hb with rfl | hb2
      · rfl
      · exact absurd hk (hx b hb2)
    · rcases List.mem_cons.mp hb with rfl | hb2
      · exact absurd hk.symm (hx a ha2)
      · exact ih hxs ha2 hb2

lemma find?_append_of_none {p : Customer → Bool} {l₁ l₂ : List Customer}
    (h : l₁.find? p = none) : (l₁ ++ l₂).find? p = l₂.find? p := by
  induction l₁ with
  | nil => simp
  | cons x xs ih =>
    rw [List.find?_cons] at h
    rcases hx : p x with hf | ht
    · rw [List.cons_append, List.find?_cons, hx]
      exact ih (by simpa [hx] using h)
    · simp [hx] at h

lemma inv_init : Inv BankState.init := by
  constructor <;> simp [BankState.init]

lemma inv_create (hash : String → String) {st : BankState}
    (h : Inv st) (name mobile_no email : String) (pin : PinValue)
    (action_type : String) :
    Inv (create_account hash st name mobile_no email pin action_type).2 := by
  unfold create_account
  split
  · exact h
  · dsimp only
    set row : Customer :=
      ⟨st.nextAccountNo, name, mobile_no, email, hash (pyStr pin), action_type, 0⟩ with hrow
    constructor
    · intro c hc
      simp only [acctTxs]
      rcases List.mem_append.mp hc with hc2 | hc2
      · exact h.replay_ok c hc2
      · have hceq : c = row := by simpa using hc2
        subst hceq
        have hempty : st.transactions.filter
            (fun t => t.account_no == row.account_no) = [] := by
          rw [List.filter_eq_nil_iff]
          intro t ht
          have := h.tx_lt t ht
          simp only [hrow, beq_iff_eq]
          omega
        simp [hempty, replayBalance, hrow]
    · intro c hc
      rcases List.mem_append.mp hc with hc2 | hc2
      · exact h.nonneg c hc2
      · have hceq : c = row := by simpa using hc2
        subst hceq
        simp [hrow]
    · rw [List.pairwise_append]
      refine ⟨h.keys_unique, by simp, ?_⟩
      intro a ha b hb
      have hbeq : b = row := by simpa using hb
      subst hbeq
      have := h.keys_lt a ha
      simp only [hrow]
      omega
    · intro c hc
      show c.account_no < st.nextAccountNo + 1
      rcases List.mem_append.mp hc with hc2 | hc2
      · have := h.keys_lt c hc2
        omega
      · have hceq : c = row := by simpa using hc2
        subst hceq
        simp [hrow]
    · intro t ht
      show t.account_no < st.nextAccountNo + 1
      have := h.tx_lt t ht
      omega
    · exact h.tx_dir

lemma updateBalance_key (acct : Nat) (nb : ℚ) (d : Customer) :
    ((fun d => if d.account_no == acct then { d with balance := nb } else d) d).account_no
      = d.account_no := by
  dsimp only
  split <;> rfl

lemma inv_mutate {st : BankState} (h : Inv st) {c : Customer} {acct : Nat}
    (hf : findCustomer st acct = some c) (nb : ℚ) (dir : String) (amt : ℚ)
    (now : String)
    (hdir : dir = "Credit" ∨ dir = "Debit")
    (hnb : nb = c.balance + (if dir == "Credit" then amt else -amt))
    (hnn : 0 ≤ nb) :
    Inv { st with
            customers := updateBalance st acct nb,
            transactions := st.transactions ++ [⟨st.nextTxId, acct, dir, amt, nb, now⟩],
            nextTxId := st.nextTxId + 1 } := by
  have hcm : c ∈ st.customers := findCustomer_mem hf
  have hck : c.account_no = acct := findCustomer_key hf
  set row : TxRecord := ⟨st.nextTxId, acct, dir, amt, nb, now⟩ with hrow
  have hdelta : txDelta row = if dir == "Credit" then amt else -amt := by
    simp [txDelta, hrow]
  constructor
  · intro d2 hd2
    simp only [updateBalance, List.mem_map] at hd2
    rcases hd2 with ⟨d, hd, hfd⟩
    have hacct : acctTxs
        { st with
            customers := updateBalance st acct nb,
            transactions := st.transactions ++ [row],
            nextTxId := st.nextTxId + 1 } d2.account_no
        = acctTxs st d2.account_no ++
          (if row.account_no == d2.account_no then [row] else []) := by
      simp only [acctTxs, List.filter_append, List.filter_cons, List.filter_nil]
    rw [hacct]
    have hkey : d2.account_no = d.account_no := by
      rw [← hfd]
      exact updateBalance_key acct nb d
    by_cases hd_acct : d.account_no = acct
    · have hdc : d = c := mem_key_eq h.keys_unique hd hcm (by rw [hd_acct, hck])
      subst hdc
      have hfd2 : d2 = { d with balance := nb } := by
        rw [← hfd]
        simp [hd_acct]
      have hrowkey : (row.account_no == d2.account_no) = true := by
        simp [hrow, hkey, hfd2, hd_acct]
      rw [hrowkey]
      simp only [eq_self_iff_true, if_true]
      rw [replayBalance_append_single]
      have hold : replayBalance (acctTxs st d2.account_no) = d.balance := by
        have := h.replay_ok d hd
        rw [hkey]
        exact this
      rw [hold, hdelta, hfd2, ← hnb]
    · have hfd2 : d2 = d := by
        rw [← hfd]
        simp [hd_acct]
      have hrowkey : (row.account_no == d2.account_no) = false := by
        simp only [hrow, beq_eq_false_iff_ne, ne_eq]
        rw [hfd2]
        exact fun hh => hd_acct hh.symm
      rw [hrowkey, if_neg Bool.false_ne_true]
      rw [List.append_nil, hfd2]
      have := h.replay_ok d hd
      exact this
  · intro d2 hd2
    simp only [updateBalance, List.mem_map] at hd2
    rcases hd2 with ⟨d, hd, hfd⟩
    rw [← hfd]
    split
    · exact hnn
    · exact h.nonneg d hd
  · show (updateBalance st acct nb).Pairwise (fun a b => a.account_no ≠ b.account_no)
    rw [updateBalance, List.pairwise_map]
    refine h.keys_unique.imp_of_mem ?_
    intro a b ha hb hne
    rw [updateBalance_key acct nb a, updateBalance_key acct nb b]
    exact hne
  · intro d2 hd2
    show d2.account_no < st.nextAccountNo
    simp only [updateBalance, List.mem_map] at hd2
    rcases hd2 with ⟨d, hd, hfd⟩
    rw [← hfd, updateBalance_key acct nb d]
    exact h.keys_lt d hd
  · intro t ht
    show t.account_no < st.nextAccountNo
    rcases List.mem_append.mp ht with ht2 | ht2
    · exact h.tx_lt t ht2
    · have : t = row := by simpa using ht2
      subst this
      rw [hrow]
      show acct < st.nextAccountNo
      rw [← hck]
      exact h.keys_lt c hcm
  · intro t ht
    rcases List.mem_append.mp ht with ht2 | ht2
    · exact h.tx_dir t ht2
    · have : t = row := by simpa using ht2
      subst this
      exact hdir

lemma inv_deposit {st : BankState} (h : Inv st) (acct : Nat) (amt : ℚ)
    (now : String) : Inv (deposit st acct amt now).2 := by
  unfold deposit
  rcases le_or_lt amt 0 with hamt | hamt
  · rw [if_pos hamt]
    exact h
  · rw [if_neg (not_le.mpr hamt)]
    cases hf : findCustomer st acct with
    | none => exact h
    | some c =>
      dsimp only
      refine inv_mutate h hf (c.balance + amt) "Credit" amt now (Or.inl rfl)
        (by simp) ?_
      have := h.nonneg c (findCustomer_mem hf)
      linarith

lemma inv_withdraw {st : BankState} (h : Inv st) (acct : Nat) (amt : ℚ)
    (now : String) : Inv (withdraw st acct amt now).2 := by
  unfold withdraw
  rcases le_or_lt amt 0 with hamt | hamt
  · rw [if_pos hamt]
    exact h
  · rw [if_neg (not_le.mpr hamt)]
    cases hf : findCustomer st acct with
    | none => exact h
    | some c =>
      dsimp only
      rcases lt_or_le c.balance amt with hlt | hle
      · rw [if_pos hlt]
        exact h
      · rw [if_neg (not_lt.mpr hle)]
        refine inv_mutate h hf (c.balance - amt) "Debit" amt now (Or.inr rfl)
          (by rw [if_neg (by decide)]; ring) ?_
        linarith

lemma inv_applyOp (hash : String → String) {st : BankState} (h : Inv st)
    (op : Op) : Inv (applyOp hash st op) := by
  cases op with
  | createAcct n m e p ty => exact inv_create hash h n m e p ty
  | dep a amt now => exact inv_deposit h a amt now
  | wd a amt now => exact inv_withdraw h a amt now

lemma inv_runOps (hash : String → String) {st : BankState} (h : Inv st)
    (ops : List Op) : Inv (runOps hash st ops) := by
  induction ops generalizing st with
  | nil => exact h
  | cons op ops ih =>
    rw [runOps, List.foldl_cons]
    exact ih (inv_applyOp hash h op)

/-! ### Sorting lemmas for the history query -/

lemma insertByDateDesc_perm (t : TxRecord) (l : List TxRecord) :
    (insertByDateDesc t l).Perm (t :: l) := by
  induction l with
  | nil => exact List.Perm.refl _
  | cons u us ih =>
    rw [insertByDateDesc]
    split
    · exact List.Perm.refl _
    · exact (ih.cons u).trans (List.Perm.swap t u us)

lemma sortByDateDesc_perm (l : List TxRecord) : (sortByDateDesc l).Perm l := by
  induction l with
  | nil => exact List.Perm.refl _
  | cons t ts ih =>
    rw [sortByDateDesc]
    exact (insertByDateDesc_perm t (sortByDateDesc ts)).trans (ih.cons t)

lemma pairwise_insertByDateDesc {t : TxRecord} {l : List TxRecord}
    (hl : l.Pairwise (fun a b => b.date_time ≤ a.date_time)) :
    (insertByDateDesc t l).Pairwise (fun a b => b.date_time ≤ a.date_time) := by
  induction l with
  | nil => simp [insertByDateDesc]
  | cons u us ih =>
    rcases List.pairwise_cons.mp hl with ⟨hu, hus⟩
    rw [insertByDateDesc]
    split
    · rename_i hle
      refine List.pairwise_cons.mpr ⟨?_, hl⟩
      intro v hv
      rcases List.mem_cons.mp hv with rfl | hv2
      · exact hle
      · exact le_trans (hu v hv2) hle
    · rename_i hnle
      refine List.pairwise_cons.mpr ⟨?_, ih hus⟩
      intro v hv
      have hv2 := (insertByDateDesc_perm t us).mem_iff.mp hv
      rcases List.mem_cons.mp hv2 with rfl | hv3
      · exact le_of_not_le hnle
      · exact hu v hv3

lemma pairwise_sortByDateDesc (l : List TxRecord) :
    (sortByDateDesc l).Pairwise (fun a b => b.date_time ≤ a.date_time) := by
  induction l with
  | nil => simp [sortByDateDesc]
  | cons t ts ih =>
    rw [sortByDateDesc]
    exact pairwise_insertByDateDesc ih

/-- Concrete evaluation of the worked scenario. -/
lemma exSt_eq : exSt = ⟨[exCust], [exTxCredit, exTxDebit], 2, 3⟩ := by
  norm_num [exSt, exOps, runOps, applyOp, exHash, exCust, exTxCredit, exTxDebit,
    create_account, deposit, withdraw, updateBalance, findCustomer, pyStr,
    BankState.init]

/-! ### The claims -/

/-- C2: a withdrawal of more than the current balance returns `None`
and leaves the state (balance and transaction log) exactly unchanged;
consequently no reachable state has an account with negative balance. -/
theorem C2_no_negative_balance :
    (∀ (st : BankState) (acct : Nat) (amt : ℚ) (now : String) (c : Customer),
      findCustomer st acct = some c → c.balance < amt →
      withdraw st acct amt now = (none, st)) ∧
    (∀ (hash : String → String) (ops : List Op),
      ∀ c ∈ (runOps hash BankState.init ops).customers, 0 ≤ c.balance) := by
  constructor
  · intro st acct amt now c hf hlt
    unfold withdraw
    rcases le_or_lt amt 0 with hamt | hamt
    · rw [if_pos hamt]
    · rw [if_neg (not_le.mpr hamt), hf]
      dsimp only
      rw [if_pos hlt]
  · intro hash ops c hc
    exact (inv_runOps hash inv_init ops).nonneg c hc

/-- Witness for C2: withdrawing 10000.00 from the 800.00 account of the
worked scenario fails with the state unchanged, and the balance is
non-negative. -/
theorem C2_no_negative_balance_witness :
    withdraw exSt 1 10000 "2025-01-01T12:00:00" = (none, exSt) ∧
    (0 : ℚ) ≤ exCust.balance := by
  refine ⟨C2_no_negative_balance.1 exSt 1 10000 "2025-01-01T12:00:00" exCust
    (by rw [exSt_eq]; rfl) (by norm_num [exCust]), ?_⟩
  exact C2_no_negative_balance.2 exHash exOps exCust
    (by show exCust ∈ exSt.customers; rw [exSt_eq]; exact List.mem_singleton_self _)

/-- C3: a deposit of a positive amount into an existing account returns
the prior balance plus the amount, stores that balance on the target
account (all other rows and fields untouched), and appends exactly one
`Credit` record carrying the amount and `balance_after` equal to the new
balance. -/
theorem C3_deposit_spec (st : BankState) (acct : Nat) (amt : ℚ) (now : String)
    (c : Customer) (hc : findCustomer st acct = some c) (hamt : 0 < amt) :
    deposit st acct amt now =
      (some (c.balance + amt),
        { st with
            customers := st.customers.map (fun d =>
              if d.account_no == acct then { d with balance := c.balance + amt }
              else d),
            transactions := st.transactions ++
              [⟨st.nextTxId, acct, "Credit", amt, c.balance + amt, now⟩],
            nextTxId := st.nextTxId + 1 }) := by
  unfold deposit
  rw [if_neg (not_le.mpr hamt), hc]
  rfl

/-- Witness for C3: depositing 5.00 into the 800.00 account of the
worked scenario. -/
theorem C3_deposit_spec_witness :
    deposit exSt 1 5 "2025-01-02T09:00:00" =
      (some (exCust.balance + 5),
        { exSt with
            customers := exSt.customers.map (fun d =>
              if d.account_no == 1 then { d with balance := exCust.balance + 5 }
              else d),
            transactions := exSt.transactions ++
              [⟨exSt.nextTxId, 1, "Credit", 5, exCust.balance + 5,
                "2025-01-02T09:00:00"⟩],
            nextTxId := exSt.nextTxId + 1 }) :=
  C3_deposit_spec exSt 1 5 "2025-01-02T09:00:00" exCust
    (by rw [exSt_eq]; rfl) (by norm_num)

/-- C4: for an account number with no row, deposit and withdraw return
`None` for every amount and leave the whole state (accounts table and
transaction log) exactly as before. -/
theorem C4_account_not_found (st : BankState) (acct : Nat) (amt : ℚ)
    (now : String) (h : findCustomer st acct = none) :
    deposit st acct amt now = (none, st) ∧ withdraw st acct amt now = (none, st) := by
  refine ⟨?_, ?_⟩
  · unfold deposit
    rcases le_or_lt amt 0 with hamt | hamt
    · rw [if_pos hamt]
    · rw [if_neg (not_le.mpr hamt), h]
  · unfold withdraw
    rcases le_or_lt amt 0 with hamt | hamt
    · rw [if_pos hamt]
    · rw [if_neg (not_le.mpr hamt), h]

/-- Witness for C4: account 2 does not exist in the scenario state. -/
theorem C4_account_not_found_witness :
    deposit exSt 2 7 "2025-01-02T09:00:00" = (none, exSt) ∧
    withdraw exSt 2 7 "2025-01-02T09:00:00" = (none, exSt) :=
  C4_account_not_found exSt 2 7 "2025-01-02T09:00:00" (by rw [exSt_eq]; rfl)

/-- C5: a non-positive amount makes deposit and withdraw return `None`
immediately, before any account lookup, with the state untouched. -/
theorem C5_invalid_amount (st : BankState) (acct : Nat) (amt : ℚ)
    (now : String) (h : amt ≤ 0) :
    deposit st acct amt now = (none, st) ∧ withdraw st acct amt now = (none, st) := by
  constructor
  · unfold deposit
    rw [if_pos h]
  · unfold withdraw
    rw [if_pos h]

/-- Witness for C5: amount `-3` is rejected by both operations. -/
theorem C5_invalid_amount_witness :
    deposit exSt 1 (-3) "2025-01-02T09:00:00" = (none, exSt) ∧
    withdraw exSt 1 (-3) "2025-01-02T09:00:00" = (none, exSt) :=
  C5_invalid_amount exSt 1 (-3) "2025-01-02T09:00:00" (by norm_num)

/-- C6: account creation on a mobile or email collision returns `None`
with no partial effect; otherwise (valid category, all account numbers
below the autoincrement counter) it returns the fresh number, which
differs from every existing one, and appends exactly one row carrying
balance 0.00 and the one-way hash of `str(pin)`, never the pin itself. -/
theorem C6_create_account_spec (hash : String → String) (st : BankState)
    (name mobile_no email : String) (pin : PinValue) (action_type : String) :
    ((∃ c ∈ st.customers, c.mobile_no = mobile_no ∨ c.email = email) →
      create_account hash st name mobile_no email pin action_type = (none, st)) ∧
    ((∀ c ∈ st.customers, c.mobile_no ≠ mobile_no ∧ c.email ≠ email) →
      action_type = "Savings" ∨ action_type = "Current" →
      (∀ c ∈ st.customers, c.account_no < st.nextAccountNo) →
      create_account hash st name mobile_no email pin action_type =
        (some st.nextAccountNo,
          { st with
              customers := st.customers ++
                [⟨st.nextAccountNo, name, mobile_no, email, hash (pyStr pin),
                  action_type, 0⟩],
              nextAccountNo := st.nextAccountNo + 1 }) ∧
      (∀ c ∈ st.customers, c.account_no ≠ st.nextAccountNo)) := by
  constructor
  · rintro ⟨c, hc, hcol⟩
    unfold create_account
    rw [if_pos]
    rw [Bool.or_eq_true, List.any_eq_true]
    refine Or.inl ⟨c, hc, ?_⟩
    rcases hcol with h1 | h1 <;> simp [h1]
  · intro hno hty hlt
    have hcond : (st.customers.any
          (fun c => c.mobile_no == mobile_no || c.email == email)
        || !(action_type == "Savings" || action_type == "Current")) = false := by
      rw [Bool.or_eq_false_iff]
      constructor
      · rw [List.any_eq_false]
        intro c hc
        have := hno c hc
        simp [this.1, this.2]
      · rcases hty with h1 | h1 <;> simp [h1]
    refine ⟨?_, fun c hc => Nat.ne_of_lt (hlt c hc)⟩
    unfold create_account
    rw [if_neg (by simp only [hcond]; exact Bool.false_ne_true)]

/-- Witness for C6: re-using the scenario's mobile number fails with no
effect; a fresh identity succeeds with the expected row. -/
theorem C6_create_account_spec_witness :
    create_account exHash exSt "Jane" "1234567890" "jane@x"
        (PinValue.intPin 9) "Savings" = (none, exSt) ∧
    create_account exHash exSt "Jane" "m9" "e9"
        (PinValue.intPin 9) "Savings" =
      (some exSt.nextAccountNo,
        { exSt with
            customers := exSt.customers ++
              [⟨exSt.nextAccountNo, "Jane", "m9", "e9",
                exHash (pyStr (PinValue.intPin 9)), "Savings", 0⟩],
            nextAccountNo := exSt.nextAccountNo + 1 }) ∧
    (∀ c ∈ exSt.customers, c.account_no ≠ exSt.nextAccountNo) := by
  refine ⟨(C6_create_account_spec exHash exSt "Jane" "1234567890" "jane@x"
      (PinValue.intPin 9) "Savings").1
      ⟨exCust, by rw [exSt_eq]; exact List.mem_singleton_self _, Or.inl rfl⟩, ?_⟩
  have h := (C6_create_account_spec exHash exSt "Jane" "m9" "e9"
      (PinValue.intPin 9) "Savings").2 ?_ (Or.inl rfl) ?_
  · exact ⟨h.1, h.2⟩
  · rw [exSt_eq]
    decide
  · rw [exSt_eq]
    decide

/-- C7: authentication succeeds exactly when the account exists and the
stored hash equals the hash of `str(pin)`; an unknown account number
yields `false`, not an error, indistinguishable from a wrong PIN. -/
theorem C7_authenticate_spec (hash : String → String) (st : BankState)
    (acct : Nat) (pin : PinValue) :
    (authenticate hash st acct pin = true ↔
      ∃ c, findCustomer st acct = some c ∧ c.pin_hash = hash (pyStr pin)) ∧
    (findCustomer st acct = none → authenticate hash st acct pin = false) := by
  unfold authenticate
  cases hf : findCustomer st acct with
  | none => simp
  | some c => simp

/-- Witness for C7: the scenario account authenticates with its creation
PIN; an unknown account number yields `false`. -/
theorem C7_authenticate_spec_witness :
    authenticate exHash exSt 1 (PinValue.intPin 1234) = true ∧
    authenticate exHash exSt 3 (PinValue.intPin 1234) = false := by
  constructor
  · exact (C7_authenticate_spec exHash exSt 1 (PinValue.intPin 1234)).1.mpr
      ⟨exCust, by rw [exSt_eq]; rfl, rfl⟩
  · exact (C7_authenticate_spec exHash exSt 3 (PinValue.intPin 1234)).2
      (by rw [exSt_eq]; rfl)

/-- C8: the history query returns only records of the requested account,
taken from the stored log, ordered newest-first by timestamp, truncated
to at most `limit` rows (all of them when they fit), with the default
limit 10; it is a pure read returning no modified state. -/
theorem C8_history_spec (st : BankState) (acct : Nat) (limit : Nat) :
    (∀ t ∈ get_transaction_history st acct limit,
      t.account_no = acct ∧ t ∈ st.transactions) ∧
    (get_transaction_history st acct limit).Pairwise
      (fun a b => b.date_time ≤ a.date_time) ∧
    (get_transaction_history st acct limit).length ≤ limit ∧
    ((acctTxs st acct).length ≤ limit →
      (get_transaction_history st acct limit).Perm (acctTxs st acct)) ∧
    get_transaction_history_default st acct = get_transaction_history st acct 10 := by
  refine ⟨?_, ?_, ?_, ?_, rfl⟩
  · intro t ht
    have h1 := (List.take_sublist limit _).subset ht
    have h2 := (sortByDateDesc_perm _).mem_iff.mp h1
    have h3 := List.mem_filter.mp h2
    exact ⟨by simpa using h3.2, h3.1⟩
  · exact (pairwise_sortByDateDesc _).sublist (List.take_sublist _ _)
  · rw [get_transaction_history, List.length_take]
    exact min_le_left _ _
  · intro hlen
    rw [get_transaction_history]
    have hperm := sortByDateDesc_perm
      (st.transactions.filter (fun u => u.account_no == acct))
    have hlen2 : (sortByDateDesc
        (st.transactions.filter (fun u => u.account_no == acct))).length
        ≤ limit := by
      rw [hperm.length_eq]
      exact hlen
    rw [List.take_of_length_le hlen2]
    exact hperm

/-- Witness for C8: on the scenario state, the newest record is the
debit, both records of account 1 are returned within the default limit,
and the order is newest-first. -/
theorem C8_history_spec_witness :
    (exTxDebit.account_no = 1 ∧ exTxDebit ∈ exSt.transactions) ∧
    (get_transaction_history exSt 1 10).Perm (acctTxs exSt 1) := by
  have hij : ¬ (exTxDebit.date_time ≤ exTxCredit.date_time) := by
    rw [show exTxDebit.date_time = "2025-01-01T11:00:00" from rfl,
      show exTxCredit.date_time = "2025-01-01T10:00:00" from rfl,
      String.le_iff_toList_le]
    decide
  refine ⟨(C8_history_spec exSt 1 10).1 exTxDebit ?_,
    (C8_history_spec exSt 1 10).2.2.2.1 ?_⟩
  · rw [exSt_eq]
    have hh : get_transaction_history
        (⟨[exCust], [exTxCredit, exTxDebit], 2, 3⟩ : BankState) 1 10
        = [exTxDebit, exTxCredit] := by
      show (sortByDateDesc
        ([exTxCredit, exTxDebit].filter (fun t => t.account_no == 1))).take 10
        = [exTxDebit, exTxCredit]
      rw [show ([exTxCredit, exTxDebit].filter (fun t => t.account_no == 1))
        = [exTxCredit, exTxDebit] from rfl]
      simp only [sortByDateDesc, insertByDateDesc]
      rw [if_neg hij]
      rfl
    rw [hh]
    exact List.mem_cons_self _ _
  · rw [exSt_eq]
    decide

/-- C10: both `create_account` and `authenticate` hash `str(pin)`, so
(for a collision-free hash) authentication succeeds after creation
exactly when the offered PIN has the same string form as the creation
PIN; in particular the integer 1234 and the string "1234" are
interchangeable credentials. -/
theorem C10_pin_str_coercion (hash : String → String) (st : BankState)
    (name mobile_no email : String) (p : PinValue) (action_type : String)
    (acct : Nat) (st2 : BankState) (q : PinValue)
    (hinj : Function.Injective hash)
    (hfresh : ∀ c ∈ st.customers, c.account_no ≠ st.nextAccountNo)
    (hcr : create_account hash st name mobile_no email p action_type
      = (some acct, st2)) :
    (authenticate hash st2 acct q = true ↔ pyStr q = pyStr p) ∧
    pyStr (PinValue.intPin 1234) = pyStr (PinValue.strPin "1234") := by
  refine ⟨?_, rfl⟩
  unfold create_account at hcr
  split at hcr
  · exact absurd (congrArg Prod.fst hcr) (by simp)
  · simp only [Prod.mk.injEq, Option.some.injEq] at hcr
    obtain ⟨rfl, rfl⟩ := hcr
    unfold authenticate findCustomer
    rw [find?_append_of_none (List.find?_eq_none.mpr
      (fun c hc => by simp [hfresh c hc]))]
    simp only [List.find?_cons, beq_self_eq_true]
    rw [beq_iff_eq]
    constructor
    · intro hq
      exact (hinj hq).symm
    · intro hq
      rw [hq]

/-- Witness for C10: an account created with the integer PIN 1234
authenticates with the string PIN "1234". -/
theorem C10_pin_str_coercion_witness :
    authenticate (fun s => s) exSt2 1 (PinValue.strPin "1234") = true ∧
    pyStr (PinValue.intPin 1234) = pyStr (PinValue.strPin "1234") := by
  have h := C10_pin_str_coercion (fun s => s) BankState.init "A" "m1" "e1"
    (PinValue.intPin 1234) "Savings" 1 exSt2 (PinValue.strPin "1234")
    (fun a b hab => hab)
    (by intro c hc; simp [BankState.init] at hc)
    rfl
  exact ⟨h.1.mpr (by decide), h.2⟩

end Bank
